import Mathlib

/-!
Verification of the clog event recorder (robbarry/clog).

Shallow embedding of the core subsystems:
* the local event store (src/db.rs): schema migration, session queries,
  filtered entry listings;
* the session-identity resolver (src/session.rs);
* the sync engine (src/sync.rs) against a direct-store remote;
* device identity (src/device.rs).

Timestamps are modelled as UTC seconds (Int).  The source stores RFC3339
strings produced by to_rfc3339 on Utc values; for such strings lexicographic
order, SQLite datetime() order and chronological order all agree, so an
integer time value is an order-faithful model.
-/

namespace Clog

/-- A row of the log_entries table at schema version 3 (src/db.rs,
create_initial_schema).  Local-only bookkeeping columns synced_at and
sync_attempts are included. -/
structure DbRow where
  id : Int
  ppid : Int
  name : Option String
  timestamp : Int
  directory : String
  message : String
  session_id : String
  repo_root : Option String
  repo_branch : Option String
  repo_commit : Option String
  event_id : Option String
  device_id : Option String
  synced_at : Option Int
  sync_attempts : Int
  deriving DecidableEq, Repr

/-- A row of the sessions table (src/db.rs, create_initial_schema). -/
structure SessRow where
  session_id : String
  ppid : Int
  name : Option String
  first_seen : Int
  last_seen : Int
  is_active : Bool
  device_id : Option String
  deriving DecidableEq, Repr

/-- Database::get_active_session (src/db.rs): the first sessions row with
matching ppid, is_active = 1 and datetime(last_seen) strictly newer than
now minus 24 hours (86400 seconds); rusqlite query_row takes the first
matching row. -/
def get_active_session (sessions : List SessRow) (ppid : Int) (now : Int) :
    Option SessRow :=
  (sessions.filter fun s =>
    decide (s.ppid = ppid) && s.is_active && decide (now - 86400 < s.last_seen)).head?

/-- Database::update_session_name (src/db.rs): UPDATE sessions SET
name = ?, last_seen = now WHERE session_id = ?. -/
def update_session_name (sessions : List SessRow) (sid : String) (nm : String)
    (now : Int) : List SessRow :=
  sessions.map fun s =>
    if s.session_id = sid then { s with name := some nm, last_seen := now } else s

/-- A row of the remote (Postgres) log_entries table, as populated by the
INSERT in SyncClient::async_sync_push (src/sync.rs). -/
structure RemoteRow where
  event_id : String
  device_id : String
  ppid : Int
  name : Option String
  timestamp : Int
  directory : String
  message : String
  session_id : String
  repo_root : Option String
  repo_branch : Option String
  repo_commit : Option String
  deriving DecidableEq, Repr

/-- The remote store: the log_entries table (unique on event_id) and the
sync_state table mapping device_id to last_sync_at. -/
structure RemoteState where
  rows : List RemoteRow
  sync_state : List (String × Int)
  deriving DecidableEq, Repr

/-- The values bound by the INSERT in async_sync_push (src/sync.rs lines
91-111): all business fields of the local entry, the client device id
(self.device_id), and neither synced_at nor sync_attempts. -/
def payloadOf (clientDevice : String) (eid : String) (e : DbRow) : RemoteRow :=
  { event_id := eid
    device_id := clientDevice
    ppid := e.ppid
    name := e.name
    timestamp := e.timestamp
    directory := e.directory
    message := e.message
    session_id := e.session_id
    repo_root := e.repo_root
    repo_branch := e.repo_branch
    repo_commit := e.repo_commit }

/-- INSERT ... ON CONFLICT (event_id) DO NOTHING against the remote table. -/
def upsertRemote (rows : List RemoteRow) (row : RemoteRow) : List RemoteRow :=
  if rows.any fun r => r.event_id = row.event_id then rows else rows ++ [row]

/-- The event ids carried by a batch of local entries. -/
def eidsOfBatch (batch : List DbRow) : List String :=
  batch.filterMap fun e => e.event_id

/-- The per-entry loop of async_sync_push (src/sync.rs lines 86-122): each
entry is upserted individually; an entry whose remote execute fails (the
oracle ok returns false) is logged and skipped; an entry with no event_id
aborts the pass with an error carrying the remote rows written so far.
Returns the remote rows and the event ids collected into synced_ids. -/
def pushBatch (clientDevice : String) (ok : String → Bool) :
    List DbRow → List RemoteRow → Except (String × List RemoteRow) (List RemoteRow × List String)
  | [], rows => .ok (rows, [])
  | e :: es, rows =>
    match e.event_id with
    | none => .error ("Entry missing event_id", rows)
    | some eid =>
      if ok eid then
        match pushBatch clientDevice ok es (upsertRemote rows (payloadOf clientDevice eid e)) with
        | .ok (rows2, ids) => .ok (rows2, eid :: ids)
        | .error err => .error err
      else
        pushBatch clientDevice ok es rows

/-- Modelled from the spec: Database::mark_entries_synced is called from
src/sync.rs but its definition is not among the provided sources.  Spec
section 4.3: "mark_entries_synced(event_ids): sets synced_at for exactly
those ids". -/
def mark_entries_synced (entries : List DbRow) (ids : List String) (now : Int) :
    List DbRow :=
  entries.map fun e =>
    if (match e.event_id with
        | some eid => ids.contains eid
        | none => false) then
      { e with synced_at := some now }
    else e

/-- Modelled from the spec: Database::get_unsynced_entries is called from
src/sync.rs but its definition is not among the provided sources.  Spec
section 4.3: "rows with sync_attempts below threshold (or not yet synced),
ordered by local id, capped at batch_size". -/
def get_unsynced_entries (entries : List DbRow) (threshold : Int) (batch : Nat) :
    List DbRow :=
  (((entries.filter fun e =>
      decide (e.synced_at = none) && decide (e.sync_attempts < threshold)).insertionSort
    fun a b => a.id ≤ b.id).take batch)

/-- INSERT INTO sync_state ... ON CONFLICT (device_id) DO UPDATE SET
last_sync_at (src/sync.rs lines 131-137). -/
def updateSyncState (ss : List (String × Int)) (dev : String) (now : Int) :
    List (String × Int) :=
  if ss.any fun p => p.1 = dev then
    ss.map fun p => if p.1 = dev then (p.1, now) else p
  else ss ++ [(dev, now)]

/-- The batch loop of async_sync_push (src/sync.rs lines 74-138): fetch up
to 100 unsynced entries, stop when none remain, otherwise upsert each,
mark the successfully upserted ids synced locally, update sync_state, and
repeat.  Fuel bounds the number of iterations so the model is total. -/
def syncLoop (dev : String) (ok : String → Bool) (threshold : Int) (now : Int) :
    Nat → List DbRow → RemoteState → List DbRow × RemoteState × Except String Unit
  | 0, les, rem => (les, rem, .ok ())
  | fuel + 1, les, rem =>
    let batch := get_unsynced_entries les threshold 100
    if batch.isEmpty then (les, rem, .ok ())
    else
      match pushBatch dev ok batch rem.rows with
      | .error (msg, rows2) => (les, { rem with rows := rows2 }, .error msg)
      | .ok (rows2, ids) =>
        let les2 := if ids.isEmpty then les else mark_entries_synced les ids now
        syncLoop dev ok threshold now fuel les2
          { rows := rows2, sync_state := updateSyncState rem.sync_state dev now }

/-- SyncClient::sync_push (src/sync.rs lines 25-33): push_only = false is
rejected immediately, before credentials are resolved or the remote store
is contacted; otherwise credentials are resolved and the async push loop
runs. -/
def sync_push (dev : String) (ok : String → Bool) (threshold now : Int)
    (fuel : Nat) (pushOnly : Bool) (credentials : Option String)
    (les : List DbRow) (rem : RemoteState) :
    List DbRow × RemoteState × Except String Unit :=
  if !pushOnly then
    (les, rem, .error "Pull sync not yet implemented. Use --push-only flag.")
  else
    match credentials with
    | none =>
      (les, rem, .error "No database credentials configured. Run 'clog --login' or set DATABASE_URL")
    | some _ => syncLoop dev ok threshold now fuel les rem

/-- The business fields of a local row: everything except the local-only
bookkeeping columns synced_at and sync_attempts. -/
def businessOf (e : DbRow) :
    Int × Int × Option String × Int × String × String × String ×
      Option String × Option String × Option String × Option String × Option String :=
  (e.id, e.ppid, e.name, e.timestamp, e.directory, e.message, e.session_id,
    e.repo_root, e.repo_branch, e.repo_commit, e.event_id, e.device_id)

/-! ### Session resolver (src/session.rs) -/

/-- A live OS process as reported by sysinfo: its name and its parent pid. -/
structure Proc where
  name : String
  parent : Option Nat
  deriving DecidableEq, Repr

/-- Outcome of one climbing pass of get_ppid: a matching parent was found,
a process/parent lookup failed (the ? operator aborts the whole function),
or the 20-hop budget ran out. -/
inductive ClimbRes where
  | found (pid : Nat)
  | abort
  | exhausted
  deriving DecidableEq, Repr

/-- The lowercased characters of a process name (str::to_lowercase; the
names involved are ASCII, where char-wise lowering coincides). -/
def lowerChars (s : String) : List Char := s.toList.map Char.toLower

/-- Is the first list a prefix of the second? -/
def isPrefixList : List Char → List Char → Bool
  | [], _ => true
  | _ :: _, [] => false
  | a :: as, b :: bs => a == b && isPrefixList as bs

/-- Does the pattern occur as a contiguous substring (Rust str::contains)? -/
def listInfix (pat : List Char) : List Char → Bool
  | [] => pat.isEmpty
  | b :: bs => isPrefixList pat (b :: bs) || listInfix pat bs

/-- The allow-list test of pass 1 of get_ppid (src/session.rs lines 35-43):
the lowercased parent name contains node, claude, codex or gemini. -/
def isAssistantName (nm : String) : Bool :=
  let n := lowerChars nm
  listInfix "node".toList n || listInfix "claude".toList n ||
    listInfix "codex".toList n || listInfix "gemini".toList n

/-- The pass-2 test of get_ppid (src/session.rs line 57): the lowercased
parent name equals login. -/
def isLoginName (nm : String) : Bool :=
  lowerChars nm == "login".toList

/-- One climbing pass of get_ppid: for up to fuel hops, look up the current
process and its parent (any failed lookup aborts), test the parent name,
and either return the parent pid or climb to it. -/
def climb (tbl : Nat → Option Proc) (test : String → Bool) :
    Nat → Nat → ClimbRes
  | 0, _ => .exhausted
  | fuel + 1, pid =>
    match tbl pid with
    | none => .abort
    | some pr =>
      match pr.parent with
      | none => .abort
      | some pp =>
        match tbl pp with
        | none => .abort
        | some ppr =>
          if test ppr.name then .found pp
          else climb tbl test fuel pp

/-- get_ppid (src/session.rs): pass 1 climbs up to 20 hops looking for an
AI-assistant parent name; pass 2 (reached only when pass 1 exhausts its 20
hops) re-climbs from the origin looking for a parent named login; the
final fallback returns the immediate parent of the origin. -/
def get_ppid (tbl : Nat → Option Proc) (origin : Nat) : Option Nat :=
  match climb tbl isAssistantName 20 origin with
  | .found p => some p
  | .abort => none
  | .exhausted =>
    match climb tbl isLoginName 20 origin with
    | .found p => some p
    | .abort => none
    | .exhausted => (tbl origin).bind fun pr => pr.parent

/-! ### Entry listings (src/db.rs) -/

/-- SQLite date() of a UTC time value: the UTC day index. -/
def dateOf (t : Int) : Int := t.fdiv 86400

/-- The conjunction of the optional filters shared by list_entries and
list_entries_since (src/db.rs): repo_root = ?, name = ?, session_id = ?,
date(timestamp) = date(now).  A missing filter imposes nothing. -/
def matchesFilters (root nm sid : Option String) (today : Bool) (now : Int)
    (r : DbRow) : Bool :=
  (match root with
   | some x => decide (r.repo_root = some x)
   | none => true) &&
  (match nm with
   | some x => decide (r.name = some x)
   | none => true) &&
  (match sid with
   | some x => decide (r.session_id = x)
   | none => true) &&
  (if today then decide (dateOf r.timestamp = dateOf now) else true)

/-- ORDER BY id ASC as a relation on rows. -/
def rowIdLe (a b : DbRow) : Prop := a.id ≤ b.id

instance : DecidableRel rowIdLe := fun a b =>
  inferInstanceAs (Decidable (a.id ≤ b.id))

instance : IsTotal DbRow rowIdLe := ⟨fun a b => Int.le_total a.id b.id⟩

instance : IsTrans DbRow rowIdLe := ⟨fun _ _ _ => Int.le_trans⟩

/-- ORDER BY timestamp DESC as a relation on rows (newest first). -/
def rowTsGe (a b : DbRow) : Prop := b.timestamp ≤ a.timestamp

instance : DecidableRel rowTsGe := fun a b =>
  inferInstanceAs (Decidable (b.timestamp ≤ a.timestamp))

instance : IsTotal DbRow rowTsGe := ⟨fun a b => (Int.le_total b.timestamp a.timestamp)⟩

instance : IsTrans DbRow rowTsGe := ⟨fun _ _ _ h h2 => Int.le_trans h2 h⟩

/-- Database::list_entries_since (src/db.rs lines 382-439): WHERE id > ?
plus the optional filters, ORDER BY id ASC, no limit. -/
def list_entries_since (table : List DbRow) (last_id : Int)
    (root nm : Option String) (today : Bool) (sid : Option String) (now : Int) :
    List DbRow :=
  (table.filter fun r =>
    decide (last_id < r.id) && matchesFilters root nm sid today now r).insertionSort rowIdLe

/-- Database::list_entries (src/db.rs lines 323-380): the optional filters,
ORDER BY timestamp DESC, LIMIT ?. -/
def list_entries (table : List DbRow) (limit : Nat) (root nm : Option String)
    (today : Bool) (sid : Option String) (now : Int) : List DbRow :=
  ((table.filter (matchesFilters root nm sid today now)).insertionSort rowTsGe).take limit

/-! ### Device identity (src/device.rs) -/

/-- The RFC 4648 base32 alphabet used by base32::encode. -/
def b32alphabet : List Char := "ABCDEFGHIJKLMNOPQRSTUVWXYZ234567".toList

/-- The base32 digit for a 5-bit value. -/
def b32char (n : Nat) : Char := b32alphabet.getD n 'A'

/-- The eight bits of a byte, most significant first. -/
def bitsOfByte (b : Nat) : List Bool :=
  [b.testBit 7, b.testBit 6, b.testBit 5, b.testBit 4,
   b.testBit 3, b.testBit 2, b.testBit 1, b.testBit 0]

/-- Split a bit stream into groups of five (the last group may be short). -/
def chunk5 (l : List Bool) : List (List Bool) :=
  match l with
  | [] => []
  | _ :: bs => l.take 5 :: chunk5 (bs.drop 4)
termination_by l.length
decreasing_by
  simp only [List.length_drop, List.length_cons]
  omega

/-- The value of a bit group, most significant bit first. -/
def bitsVal : List Bool → Nat
  | [] => 0
  | b :: bs => (if b then 1 else 0) * 2 ^ bs.length + bitsVal bs

/-- RFC 4648 base32 without padding: each 5-bit group (the last one padded
on the right with zero bits) becomes one alphabet character. -/
def base32encode (bytes : List Nat) : String :=
  String.mk ((chunk5 (bytes.map bitsOfByte).flatten).map fun g =>
    b32char (bitsVal g * 2 ^ (5 - g.length)))

/-- The UTF-8 bytes of an ASCII string (all source inputs are ASCII). -/
def strBytes (s : String) : List Nat := s.toList.map Char.toNat

/-- The fixed application salt (src/device.rs). -/
def APP_SALT : String := "clog-device-2024"

/-- hash_device_id (src/device.rs lines 85-93): SHA-256 of the salt
followed by the raw platform id, first 16 bytes, base32-encoded.  The
SHA-256 compression itself is abstracted as the function argument sha. -/
def hash_device_id (sha : List Nat → List Nat) (raw : String) : String :=
  base32encode ((sha (strBytes APP_SALT ++ strBytes raw)).take 16)

/-- Rust str::trim on a character list: drop leading and trailing
whitespace. -/
def trimChars (l : List Char) : List Char :=
  ((l.dropWhile Char.isWhitespace).reverse.dropWhile Char.isWhitespace).reverse

/-- Rust str::trim. -/
def rsTrim (s : String) : String := String.mk (trimChars s.toList)

/-- get_or_create_device_id (src/device.rs lines 15-46), with the device-id
file at its fixed path modelled as an optional stored string: when the file
exists its trimmed content is returned and nothing is written; otherwise
the id is derived from the platform id and persisted.  Returns the id and
the file state after the call. -/
def get_or_create_device_id (sha : List Nat → List Nat) (raw : String)
    (file : Option String) : String × Option String :=
  match file with
  | some s => (rsTrim s, some s)
  | none =>
    let d := hash_device_id sha raw
    (d, some d)

/-! ### Schema lifecycle (src/db.rs, init_schema and the migrations)

The store is modelled as the stamped user_version, table-existence and
column-existence flags (mirroring the pragma_table_info probes in the
source), and the table contents.  A statement that fails (for example
CREATE INDEX on a column that does not exist) returns an error carrying
the state as mutated by the statements already executed, since
execute_batch runs outside any transaction; migrate_to_v3 alone wraps its
body in BEGIN IMMEDIATE / COMMIT, so its failures roll back. -/

structure DbState where
  user_version : Int
  le_exists : Bool
  sess_exists : Bool
  sync_state_exists : Bool
  has_repo_cols : Bool
  has_event_id : Bool
  has_device_id_le : Bool
  has_synced_at : Bool
  has_sync_attempts : Bool
  has_device_id_sess : Bool
  log_entries : List DbRow
  sessions : List SessRow
  deriving DecidableEq, Repr

/-- The non-null event ids stored in the log_entries table. -/
def eidList (rows : List DbRow) : List String :=
  rows.filterMap fun r => r.event_id

/-- Database::create_initial_schema (src/db.rs lines 56-109): one
execute_batch creating the three tables (IF NOT EXISTS), all indexes
(IF NOT EXISTS), then PRAGMA user_version = 3.  Creating an index over a
column the existing table lacks fails at that statement, keeping the
effects of the earlier statements (execute_batch is not transactional);
the unique index on event_id also fails when stored non-null event ids
collide. -/
def create_initial_schema (st : DbState) : Except (String × DbState) DbState :=
  let st1 : DbState :=
    if st.le_exists then st
    else { st with le_exists := true, has_repo_cols := true, has_event_id := true,
                   has_device_id_le := true, has_synced_at := true,
                   has_sync_attempts := true, log_entries := [] }
  let st2 : DbState :=
    if st1.sess_exists then st1
    else { st1 with sess_exists := true, has_device_id_sess := true, sessions := [] }
  let st3 : DbState := { st2 with sync_state_exists := true }
  if !st3.has_repo_cols then .error ("no such column: repo_root", st3)
  else if !st3.has_event_id then .error ("no such column: event_id", st3)
  else if !(eidList st3.log_entries).Nodup then
    .error ("UNIQUE constraint failed: log_entries.event_id", st3)
  else if !st3.has_device_id_le then .error ("no such column: device_id", st3)
  else if !st3.has_sync_attempts then .error ("no such column: sync_attempts", st3)
  else .ok { st3 with user_version := 3 }

/-- Database::migrate_to_v2 (src/db.rs lines 111-131): probe for the
repo_root column, add the three repository columns when missing (a fresh
column is NULL on every existing row), create the two repo indexes, stamp
user_version 2. -/
def migrate_to_v2 (st : DbState) : Except (String × DbState) DbState :=
  if !st.le_exists then .error ("no such table: log_entries", st)
  else
    let st1 : DbState :=
      if st.has_repo_cols then st
      else { st with has_repo_cols := true,
                     log_entries := st.log_entries.map fun r =>
                       { r with repo_root := none, repo_branch := none, repo_commit := none } }
    .ok { st1 with user_version := 2 }

/-- A single backfill UPDATE of migrate_to_v3: UPDATE log_entries SET
event_id = COALESCE(event_id, u), device_id = COALESCE(device_id, dev)
WHERE id = i. -/
def backfillUpd (dev u : String) (i : Int) (r : DbRow) : DbRow :=
  if r.id = i then
    { r with event_id := some (r.event_id.getD u),
             device_id := some (r.device_id.getD dev) }
  else r

/-- The net effect of the single backfill UPDATE on the row it addresses. -/
def finalUpd (dev u : String) (r : DbRow) : DbRow :=
  { r with event_id := some (r.event_id.getD u),
           device_id := some (r.device_id.getD dev) }

/-- Does a row need backfilling (the WHERE of the SELECT at src/db.rs line
210)? -/
def needsBackfill (r : DbRow) : Bool :=
  decide (r.event_id = none) || decide (r.device_id = none)

/-- SELECT id FROM log_entries WHERE event_id IS NULL OR device_id IS NULL
ORDER BY id. -/
def backfillIds (rows : List DbRow) : List Int :=
  ((rows.filter needsBackfill).map fun r => r.id).insertionSort (· ≤ ·)

/-- The backfill loop of migrate_to_v3 (src/db.rs lines 215-221): for each
selected id in order, draw a fresh ULID from the generator and run the
COALESCE update.  The generator index k models the successive calls to
Ulid::new. -/
def backfillLoop (dev : String) (gen : Nat → String) :
    Nat → List Int → List DbRow → List DbRow
  | _, [], rows => rows
  | k, i :: is, rows =>
    backfillLoop dev gen (k + 1) is (rows.map (backfillUpd dev (gen k) i))

/-- The body of migrate_to_v3 (src/db.rs lines 140-242) between BEGIN
IMMEDIATE and COMMIT: probe the columns, add the missing ones (a fresh
column is NULL, sync_attempts defaults to 0), ensure sync_state exists,
backfill log_entries (only when one of the two probes was negative) and
sessions with the device id, create the three indexes (the unique one
failing on colliding event ids), stamp user_version 3. -/
def migrate_to_v3_body (dev : String) (gen : Nat → String) (st : DbState) :
    Except String DbState :=
  if !st.le_exists then .error "no such table: log_entries"
  else if !st.sess_exists then .error "no such table: sessions"
  else
    let st1 : DbState :=
      if st.has_event_id then st
      else { st with has_event_id := true,
                     log_entries := st.log_entries.map fun r => { r with event_id := none } }
    let st2 : DbState :=
      if st1.has_device_id_le then st1
      else { st1 with has_device_id_le := true,
                      log_entries := st1.log_entries.map fun r => { r with device_id := none } }
    let st3 : DbState :=
      if st2.has_synced_at then st2
      else { st2 with has_synced_at := true,
                      log_entries := st2.log_entries.map fun r => { r with synced_at := none } }
    let st4 : DbState :=
      if st3.has_sync_attempts then st3
      else { st3 with has_sync_attempts := true,
                      log_entries := st3.log_entries.map fun r => { r with sync_attempts := 0 } }
    let st5 : DbState :=
      if st4.has_device_id_sess then st4
      else { st4 with has_device_id_sess := true,
                      sessions := st4.sessions.map fun s => { s with device_id := none } }
    let st6 : DbState := { st5 with sync_state_exists := true }
    let st7 : DbState :=
      if !st.has_event_id || !st.has_device_id_le then
        { st6 with log_entries :=
            backfillLoop dev gen 0 (backfillIds st6.log_entries) st6.log_entries }
      else st6
    let st8 : DbState := { st7 with sessions := st7.sessions.map fun s =>
                   { s with device_id := some (s.device_id.getD dev) } }
    if (eidList st8.log_entries).Nodup then .ok { st8 with user_version := 3 }
    else .error "UNIQUE constraint failed: log_entries.event_id"

/-- Database::migrate_to_v3: the body runs inside one transaction, so a
failure rolls the store back to its pre-migration state. -/
def migrate_to_v3 (dev : String) (gen : Nat → String) (st : DbState) :
    Except (String × DbState) DbState :=
  match migrate_to_v3_body dev gen st with
  | .ok st2 => .ok st2
  | .error msg => .error (msg, st)

/-- Database::init_schema (src/db.rs lines 34-54): read user_version once,
then run create_initial_schema when it was 0, migrate_to_v2 when it was
below 2, migrate_to_v3 when it was below 3. -/
def init_schema (dev : String) (gen : Nat → String) (st : DbState) :
    Except (String × DbState) DbState :=
  let version := st.user_version
  match (if version = 0 then create_initial_schema st else .ok st) with
  | .error e => .error e
  | .ok st1 =>
    match (if version < 2 then migrate_to_v2 st1 else .ok st1) with
    | .error e => .error e
    | .ok st2 =>
      if version < 3 then migrate_to_v3 dev gen st2 else .ok st2

/-- Did a migration run succeed? -/
def migOk (x : Except (String × DbState) DbState) : Bool :=
  match x with
  | .ok _ => true
  | .error _ => false

/-! ### Concrete stores and processes used as evaluation inputs -/

/-- A legacy log_entries row as it would sit in a version-1 store: no
repository columns, no event or device id, no sync bookkeeping. -/
def legacyRow (i : Int) (msg : String) : DbRow :=
  { id := i, ppid := 42, name := none, timestamp := 1700000000 + i,
    directory := "/home/u", message := msg, session_id := "42_1700000000",
    repo_root := none, repo_branch := none, repo_commit := none,
    event_id := none, device_id := none, synced_at := none, sync_attempts := 0 }

/-- A concrete legacy session row. -/
def demoSess : SessRow :=
  { session_id := "42_1700000000", ppid := 42, name := some "work",
    first_seen := 1700000000, last_seen := 1700000100, is_active := true,
    device_id := none }

/-- A superseded session for the same ppid: still flagged active (the
store never clears is_active) but last seen long outside the 24-hour
window. -/
def staleSess : SessRow :=
  { session_id := "42_1600000000", ppid := 42, name := some "old",
    first_seen := 1600000000, last_seen := 1600000100, is_active := true,
    device_id := none }

/-- A version-1 store with two rows lacking event ids. -/
def demoV1 : DbState :=
  { user_version := 1, le_exists := true, sess_exists := true,
    sync_state_exists := false, has_repo_cols := false, has_event_id := false,
    has_device_id_le := false, has_synced_at := false, has_sync_attempts := false,
    has_device_id_sess := false,
    log_entries := [legacyRow 1 "first", legacyRow 2 "second"],
    sessions := [demoSess] }

/-- A version-0 store that nevertheless already contains one legacy row
lacking the event_id column (a store whose user_version was never
stamped). -/
def demoV0 : DbState :=
  { demoV1 with user_version := 0, log_entries := [legacyRow 1 "first"] }

/-- A deterministic stand-in for the stream of Ulid::new values. -/
def demoGen : Nat → String :=
  fun n => if n = 0 then "01ULIDAAA" else if n = 1 then "01ULIDBBB" else "01ULIDZZZ"

/-- The synthetic process tree origin(10) → wrapper(11) → node(12) →
login shell(13) of the session-resolver test. -/
def demoTree : Nat → Option Proc := fun p =>
  if p = 10 then some { name := "clog", parent := some 11 }
  else if p = 11 then some { name := "wrapper", parent := some 12 }
  else if p = 12 then some { name := "node", parent := some 13 }
  else if p = 13 then some { name := "login", parent := none }
  else none

/-! ### Supporting lemmas -/

/-- The head of a filtered list is m when m occurs, passes the filter, and
is the only value passing it. -/
theorem head_filter_of_uniq {α : Type} (p : α → Bool) (l : List α) (m : α)
    (hm : m ∈ l) (hp : p m = true) (hu : ∀ s ∈ l, p s = true → s = m) :
    (l.filter p).head? = some m := by
  induction l with
  | nil => cases hm
  | cons a t ih =>
    by_cases ha : p a = true
    · have haeq : a = m := hu a (List.mem_cons_self a t) ha
      subst haeq
      simp [List.filter_cons, ha]
    · have ham : a ≠ m := fun h => ha (h ▸ hp)
      have hmt : m ∈ t := by
        cases hm with
        | head => exact absurd rfl ham
        | tail _ h => exact h
      have := ih hmt fun s hs hps => hu s (List.mem_cons_of_mem a hs) hps
      simpa [List.filter_cons, ha] using this

/-! ### C9: pull sync rejected up front -/

/-- C9: calling sync_push with push_only = false returns the pull-sync
error immediately, with both the local rows and the remote store left
exactly as they were, for every credential configuration and fuel. -/
theorem sync_push_rejects_pull (dev : String) (ok : String → Bool)
    (threshold now : Int) (fuel : Nat) (credentials : Option String)
    (les : List DbRow) (rem : RemoteState) :
    sync_push dev ok threshold now fuel false credentials les rem =
      (les, rem, Except.error "Pull sync not yet implemented. Use --push-only flag.") := rfl

/-! ### C10: update_session_name refreshes last_seen and nothing else -/

/-- C10: update_session_name sets name and last_seen (to the current time)
on every session row with the given session_id and changes nothing else:
the matching rows keep their session_id, ppid, first_seen, is_active and
device_id, and non-matching rows are untouched. -/
theorem update_session_name_frame (sessions : List SessRow) (sid nm : String)
    (now : Int) :
    List.Forall₂ (fun s t =>
      if s.session_id = sid then
        t.name = some nm ∧ t.last_seen = now ∧ t.session_id = s.session_id ∧
          t.ppid = s.ppid ∧ t.first_seen = s.first_seen ∧
          t.is_active = s.is_active ∧ t.device_id = s.device_id
      else t = s)
      sessions (update_session_name sessions sid nm now) := by
  induction sessions with
  | nil => exact List.Forall₂.nil
  | cons s rest ih =>
    refine List.Forall₂.cons ?_ ih
    by_cases h : s.session_id = sid <;> simp [update_session_name, h]

/-! ### C3: the 24-hour session activity window -/

/-- C3: when m is the most recent session for the ppid and the store
satisfies the window-scoped invariant of at most one active session per
ppid whose last_seen is within the 24-hour window (superseded sessions may
keep is_active set with a stale last_seen; the store never clears the
flag), get_active_session returns none whenever m was last seen 24 hours
or more ago (the comparison is the strict inequality
now - 86400 < last_seen, so a session exactly 24 hours old is already
inactive), and returns m itself whenever m is active and was last seen
strictly within 24 hours. -/
theorem get_active_session_window (sessions : List SessRow) (m : SessRow)
    (ppid now : Int) (hmem : m ∈ sessions) (hppid : m.ppid = ppid)
    (hmax : ∀ s ∈ sessions, s.ppid = ppid → s.last_seen ≤ m.last_seen)
    (huniq : ∀ s ∈ sessions, s.ppid = ppid → s.is_active = true →
      now - 86400 < s.last_seen → s = m) :
    (m.last_seen ≤ now - 86400 → get_active_session sessions ppid now = none) ∧
    (m.is_active = true → now - 86400 < m.last_seen →
      get_active_session sessions ppid now = some m) := by
  constructor
  · intro hold
    unfold get_active_session
    have hnil : (sessions.filter fun s =>
        decide (s.ppid = ppid) && s.is_active && decide (now - 86400 < s.last_seen)) = [] := by
      rw [List.filter_eq_nil_iff]
      intro s hs
      simp only [Bool.and_eq_true, decide_eq_true_eq, not_and]
      intro hsp _
      have h1 : s.last_seen ≤ m.last_seen := hmax s hs hsp.1
      omega
    rw [hnil]
    rfl
  · intro hact hwin
    unfold get_active_session
    apply head_filter_of_uniq
    · exact hmem
    · simp [hppid, hact, hwin]
    · intro s hs hps
      simp only [Bool.and_eq_true, decide_eq_true_eq] at hps
      exact huniq s hs hps.1.1 hps.1.2 hps.2

/-- Witness for C3: alongside a superseded session that is still flagged
active but far outside the window, the fresh session seen 100 seconds ago
is the one returned by get_active_session. -/
theorem get_active_session_window_witness :
    get_active_session [staleSess, demoSess] 42 1700000200 = some demoSess :=
  (get_active_session_window [staleSess, demoSess] demoSess 42 1700000200
    (by decide) (by decide) (by decide) (by decide)).2 (by decide) (by decide)

/-! ### C4: the session resolver prefers the assistant host -/

/-- C4: on the synthetic ancestry origin(10) → wrapper(11) → node(12) →
login shell(13), get_ppid returns the pid of the node process, not the
login shell; and structurally, the login pass runs only when the
assistant pass exhausts its 20 hops: a found pid in pass 1 is returned
as is, an aborted pass 1 yields none, and only an exhausted pass 1 makes
the result that of the login pass (with the immediate-parent fallback). -/
theorem get_ppid_prefers_assistant :
    get_ppid demoTree 10 = some 12 ∧
    (∀ tbl o p, climb tbl isAssistantName 20 o = ClimbRes.found p →
      get_ppid tbl o = some p) ∧
    (∀ tbl o, climb tbl isAssistantName 20 o = ClimbRes.abort →
      get_ppid tbl o = none) ∧
    (∀ tbl o, climb tbl isAssistantName 20 o = ClimbRes.exhausted →
      get_ppid tbl o =
        match climb tbl isLoginName 20 o with
        | ClimbRes.found p => some p
        | ClimbRes.abort => none
        | ClimbRes.exhausted => (tbl o).bind fun pr => pr.parent) := by
  refine ⟨by decide, ?_, ?_, ?_⟩
  · intro tbl o p h
    unfold get_ppid
    rw [h]
  · intro tbl o h
    unfold get_ppid
    rw [h]
  · intro tbl o h
    unfold get_ppid
    rw [h]

/-- Witness for C4: the structural pass-1 clause applied to the concrete
tree reproduces the resolved pid. -/
theorem get_ppid_prefers_assistant_witness : get_ppid demoTree 10 = some 12 :=
  get_ppid_prefers_assistant.2.1 demoTree 10 12 (by decide)

/-! ### C5: the strictly-greater-than cursor listing -/

/-- C5: list_entries_since returns exactly the rows with id strictly above
the cursor that pass all supplied filters, in ascending id order; with
cursor 0 and no filters it returns a permutation of the whole table (all
ids are positive) in sorted order; and after appending three rows whose
ids exceed the previous maximum, the call with that maximum as cursor
returns exactly those three rows, oldest first. -/
theorem list_entries_since_cursor (table : List DbRow) (last_id : Int)
    (root nm sid : Option String) (today : Bool) (now : Int) :
    (∀ e, e ∈ list_entries_since table last_id root nm today sid now ↔
      (e ∈ table ∧ last_id < e.id ∧ matchesFilters root nm sid today now e = true)) ∧
    List.Sorted rowIdLe (list_entries_since table last_id root nm today sid now) ∧
    ((∀ r ∈ table, 0 < r.id) →
      (list_entries_since table 0 none none false none now).Perm table) ∧
    (∀ t a b c, table = t ++ [a, b, c] → (∀ r ∈ t, r.id ≤ last_id) →
      last_id < a.id → a.id ≤ b.id → b.id ≤ c.id →
      list_entries_since table last_id none none false none now = [a, b, c]) := by
  refine ⟨?_, ?_, ?_, ?_⟩
  · intro e
    unfold list_entries_since
    rw [List.mem_insertionSort, List.mem_filter]
    simp [and_assoc]
  · exact List.sorted_insertionSort rowIdLe _
  · intro hpos
    unfold list_entries_since
    have hfil : (table.filter fun r =>
        decide ((0 : Int) < r.id) && matchesFilters none none none false now r) = table := by
      rw [List.filter_eq_self]
      intro r hr
      simp [matchesFilters, hpos r hr]
    rw [hfil]
    exact List.perm_insertionSort rowIdLe table
  · intro t a b c htab hsmall ha hab hbc
    subst htab
    unfold list_entries_since
    have h1 : (t.filter fun r =>
        decide (last_id < r.id) && matchesFilters none none none false now r) = [] := by
      rw [List.filter_eq_nil_iff]
      intro r hr
      have := hsmall r hr
      simp only [Bool.and_eq_true, decide_eq_true_eq, not_and]
      intro h
      omega
    have h2 : ([a, b, c].filter fun r =>
        decide (last_id < r.id) && matchesFilters none none none false now r) = [a, b, c] := by
      rw [List.filter_eq_self]
      intro r hr
      have hr3 : r = a ∨ r = b ∨ r = c := by simpa using hr
      have hlt : last_id < r.id := by
        rcases hr3 with rfl | rfl | rfl <;> omega
      simp [matchesFilters, hlt]
    rw [List.filter_append, h1, h2, List.nil_append]
    apply List.Sorted.insertionSort_eq
    rw [List.sorted_cons, List.sorted_cons]
    refine ⟨?_, ?_, List.sorted_singleton c⟩
    · intro x hx
      have hx2 : x = b ∨ x = c := by simpa using hx
      unfold rowIdLe
      rcases hx2 with rfl | rfl <;> omega
    · intro x hx
      have hx2 : x = c := by simpa using hx
      unfold rowIdLe
      subst hx2
      omega

/-- Witness for C5: appending ids 3, 4, 5 to a table whose ids are at most
2 and polling with cursor 2 yields exactly the three new rows. -/
theorem list_entries_since_cursor_witness :
    list_entries_since [legacyRow 1 "a", legacyRow 2 "b", legacyRow 3 "c",
      legacyRow 4 "d", legacyRow 5 "e"] 2 none none false none 0 =
      [legacyRow 3 "c", legacyRow 4 "d", legacyRow 5 "e"] :=
  (list_entries_since_cursor [legacyRow 1 "a", legacyRow 2 "b", legacyRow 3 "c",
      legacyRow 4 "d", legacyRow 5 "e"] 2 none none none false 0).2.2.2
    [legacyRow 1 "a", legacyRow 2 "b"] (legacyRow 3 "c") (legacyRow 4 "d") (legacyRow 5 "e")
    rfl (by decide) (by decide) (by decide) (by decide)

/-! ### C6: the filtered, newest-first, capped listing -/

/-- C6: every row returned by list_entries is a table row passing the
conjunction of the supplied filters, the result is ordered newest first
(non-increasing timestamps) and has at most limit rows; in particular a
repo_root filter of /repo/a only ever returns /repo/a rows. -/
theorem list_entries_conjunctive_filters (table : List DbRow) (limit : Nat)
    (root nm sid : Option String) (today : Bool) (now : Int) :
    (∀ e ∈ list_entries table limit root nm today sid now,
      e ∈ table ∧ matchesFilters root nm sid today now e = true) ∧
    List.Sorted rowTsGe (list_entries table limit root nm today sid now) ∧
    (list_entries table limit root nm today sid now).length ≤ limit ∧
    (∀ e ∈ list_entries table 10 (some "/repo/a") nm today none now,
      e.repo_root = some "/repo/a") := by
  refine ⟨?_, ?_, ?_, ?_⟩
  · intro e he
    unfold list_entries at he
    have := List.mem_of_mem_take he
    rw [List.mem_insertionSort, List.mem_filter] at this
    exact this
  · unfold list_entries
    exact List.Pairwise.sublist (List.take_sublist _ _)
      (List.sorted_insertionSort rowTsGe _)
  · exact List.length_take_le _ _
  · intro e he
    unfold list_entries at he
    have := List.mem_of_mem_take he
    rw [List.mem_insertionSort, List.mem_filter] at this
    have hf := this.2
    simp only [matchesFilters, Bool.and_eq_true, decide_eq_true_eq] at hf
    exact hf.1.1.1

/-- Witness for C6: in a mixed table the /repo/a row is returned by the
/repo/a-filtered listing and the theorem certifies its repo_root. -/
theorem list_entries_conjunctive_filters_witness :
    { legacyRow 1 "a" with repo_root := some "/repo/a" } ∈ list_entries
        [{ legacyRow 1 "a" with repo_root := some "/repo/a" },
         { legacyRow 2 "b" with repo_root := some "/repo/b" }]
        10 (some "/repo/a") none false none 0 ∧
      ({ legacyRow 1 "a" with repo_root := some "/repo/a" } : DbRow).repo_root =
        some "/repo/a" :=
  ⟨by decide,
    (list_entries_conjunctive_filters
      [{ legacyRow 1 "a" with repo_root := some "/repo/a" },
       { legacyRow 2 "b" with repo_root := some "/repo/b" }]
      10 (some "/repo/a") none none false 0).2.2.2
      { legacyRow 1 "a" with repo_root := some "/repo/a" } (by decide)⟩

/-! ### C7: device-id derivation and stability -/

/-- Dropping while a predicate holds does nothing when no element satisfies
it. -/
theorem dropWhile_eq_self_of_none {α : Type} (p : α → Bool) (l : List α)
    (h : ∀ c ∈ l, p c = false) : l.dropWhile p = l := by
  cases l with
  | nil => rfl
  | cons a t =>
    rw [List.dropWhile_cons, h a (List.mem_cons_self a t)]
    simp

/-- Trimming a list with no whitespace characters is the identity. -/
theorem trimChars_eq_self {l : List Char}
    (h : ∀ c ∈ l, c.isWhitespace = false) : trimChars l = l := by
  unfold trimChars
  rw [dropWhile_eq_self_of_none _ _ h]
  rw [dropWhile_eq_self_of_none _ _ fun c hc => h c (List.mem_reverse.mp hc)]
  exact List.reverse_reverse l

/-- Every base32 digit is a non-whitespace character. -/
theorem b32char_not_ws (n : Nat) : (b32char n).isWhitespace = false := by
  unfold b32char
  by_cases h : n < b32alphabet.length
  · rw [List.getD_eq_getElem _ _ h]
    have hmem : b32alphabet[n] ∈ b32alphabet := List.getElem_mem h
    revert hmem
    have : ∀ c ∈ b32alphabet, c.isWhitespace = false := by decide
    exact this _
  · rw [List.getD_eq_default _ _ (Nat.le_of_not_lt h)]
    decide

/-- Rust trim leaves a base32-encoded string unchanged. -/
theorem rsTrim_base32 (bytes : List Nat) :
    rsTrim (base32encode bytes) = base32encode bytes := by
  have h : ∀ c ∈ (chunk5 (bytes.map bitsOfByte).flatten).map
      (fun g => b32char (bitsVal g * 2 ^ (5 - g.length))), c.isWhitespace = false := by
    intro c hc
    obtain ⟨g, _, rfl⟩ := List.mem_map.mp hc
    exact b32char_not_ws _
  show String.mk (trimChars ((chunk5 (bytes.map bitsOfByte).flatten).map
      fun g => b32char (bitsVal g * 2 ^ (5 - g.length)))) = _
  rw [trimChars_eq_self h]
  rfl

/-- C7: the first call of get_or_create_device_id derives the id as the
base32 encoding of the first 16 bytes of the salted hash of the platform
id and persists exactly that value; every call on an existing file
returns the (trimmed) stored value and leaves the file unchanged without
re-running the derivation, so a second call returns the first call's
value even when the platform id has changed in between. -/
theorem device_id_stable (sha : List Nat → List Nat) :
    (∀ raw, get_or_create_device_id sha raw none =
      (hash_device_id sha raw, some (hash_device_id sha raw)) ∧
      hash_device_id sha raw =
        base32encode ((sha (strBytes APP_SALT ++ strBytes raw)).take 16)) ∧
    (∀ raw2 s, get_or_create_device_id sha raw2 (some s) = (rsTrim s, some s)) ∧
    (∀ raw raw2,
      get_or_create_device_id sha raw2 (get_or_create_device_id sha raw none).2 =
        get_or_create_device_id sha raw none) := by
  refine ⟨fun raw => ⟨rfl, rfl⟩, fun raw2 s => rfl, fun raw raw2 => ?_⟩
  show (rsTrim (hash_device_id sha raw), some (hash_device_id sha raw)) = _
  unfold hash_device_id
  rw [rsTrim_base32]
  rfl

/-! ### C2: direct-store push idempotency -/

/-- The stored event ids after an upsert: the new id is added exactly when
absent, and uniqueness of stored ids is preserved. -/
theorem upsertRemote_eids (rows : List RemoteRow) (row : RemoteRow) :
    (∀ x, x ∈ (upsertRemote rows row).map (fun r => r.event_id) ↔
      (x ∈ rows.map (fun r => r.event_id) ∨ x = row.event_id)) ∧
    ((rows.map fun r => r.event_id).Nodup →
      ((upsertRemote rows row).map fun r => r.event_id).Nodup) := by
  unfold upsertRemote
  by_cases h : (rows.any fun r => r.event_id = row.event_id) = true
  · rw [if_pos h]
    obtain ⟨r, hr, hre⟩ := List.any_eq_true.mp h
    have hmem : row.event_id ∈ rows.map fun r => r.event_id := by
      rw [List.mem_map]
      exact ⟨r, hr, of_decide_eq_true hre⟩
    refine ⟨fun x => ⟨fun hx => Or.inl hx, fun hx => ?_⟩, fun hd => hd⟩
    rcases hx with hx | rfl
    · exact hx
    · exact hmem
  · rw [if_neg h]
    have hnot : row.event_id ∉ rows.map fun r => r.event_id := by
      intro hx
      obtain ⟨r, hr, hre⟩ := List.mem_map.mp hx
      exact h (List.any_eq_true.mpr ⟨r, hr, decide_eq_true hre⟩)
    constructor
    · intro x
      rw [List.map_append, List.mem_append]
      simp
    · intro hd
      rw [List.map_append, List.nodup_append]
      refine ⟨hd, List.nodup_singleton _, ?_⟩
      intro x hx hx1
      have : x = row.event_id := by simpa using hx1
      exact hnot (this ▸ hx)

/-- Pushing a batch of entries that all carry an event id, with every
remote execute succeeding, succeeds; it collects exactly the batch ids
into synced_ids, stores exactly the old ids plus the batch ids, and
preserves uniqueness of the stored ids. -/
theorem pushBatch_all_success (dev : String) (batch : List DbRow)
    (hsome : ∀ e ∈ batch, e.event_id.isSome = true) :
    ∀ rows, ∃ rows2,
      pushBatch dev (fun _ => true) batch rows = .ok (rows2, eidsOfBatch batch) ∧
      (∀ x, x ∈ rows2.map (fun r => r.event_id) ↔
        (x ∈ rows.map (fun r => r.event_id) ∨ x ∈ eidsOfBatch batch)) ∧
      ((rows.map fun r => r.event_id).Nodup →
        (rows2.map fun r => r.event_id).Nodup) := by
  induction batch with
  | nil =>
    intro rows
    exact ⟨rows, rfl, by simp [eidsOfBatch], fun h => h⟩
  | cons e es ih =>
    intro rows
    obtain ⟨eid, heid⟩ := Option.isSome_iff_exists.mp
      (hsome e (List.mem_cons_self e es))
    have hes : ∀ x ∈ es, x.event_id.isSome = true :=
      fun x hx => hsome x (List.mem_cons_of_mem e hx)
    obtain ⟨rows2, hrun, hmem, hnd⟩ :=
      ih hes (upsertRemote rows (payloadOf dev eid e))
    have hcons : eidsOfBatch (e :: es) = eid :: eidsOfBatch es := by
      unfold eidsOfBatch
      rw [List.filterMap_cons, heid]
    refine ⟨rows2, ?_, ?_, ?_⟩
    · unfold pushBatch
      rw [heid]
      simp [hrun, hcons]
    · intro x
      rw [hmem x, (upsertRemote_eids rows (payloadOf dev eid e)).1 x]
      have hpl : (payloadOf dev eid e).event_id = eid := rfl
      rw [hcons, hpl]
      simp only [List.mem_cons]
      tauto
    · intro hd
      exact hnd ((upsertRemote_eids rows (payloadOf dev eid e)).2 hd)

/-- Re-pushing a batch whose ids are all already stored changes nothing
remotely: every upsert hits the conflict branch. -/
theorem pushBatch_noop (dev : String) (batch : List DbRow)
    (hsome : ∀ e ∈ batch, e.event_id.isSome = true) :
    ∀ rows, (∀ x ∈ eidsOfBatch batch, x ∈ rows.map fun r => r.event_id) →
    pushBatch dev (fun _ => true) batch rows = .ok (rows, eidsOfBatch batch) := by
  induction batch with
  | nil => intro rows _; rfl
  | cons e es ih =>
    intro rows hmem
    obtain ⟨eid, heid⟩ := Option.isSome_iff_exists.mp
      (hsome e (List.mem_cons_self e es))
    have hcons : eidsOfBatch (e :: es) = eid :: eidsOfBatch es := by
      unfold eidsOfBatch
      rw [List.filterMap_cons, heid]
    have heidmem : eid ∈ rows.map fun r => r.event_id := by
      apply hmem
      rw [hcons]
      exact List.mem_cons_self _ _
    have hup : upsertRemote rows (payloadOf dev eid e) = rows := by
      unfold upsertRemote
      rw [if_pos]
      obtain ⟨r, hr, hre⟩ := List.mem_map.mp heidmem
      exact List.any_eq_true.mpr ⟨r, hr, decide_eq_true hre⟩
    have hrest := ih (fun x hx => hsome x (List.mem_cons_of_mem e hx)) rows
      (fun x hx => hmem x (by rw [hcons]; exact List.mem_cons_of_mem _ hx))
    unfold pushBatch
    rw [heid]
    simp [hup, hrest, hcons]

/-- With an arbitrary per-entry failure oracle, a batch whose entries all
carry event ids never aborts: failing entries are skipped and exactly the
ids the oracle accepts are collected for local marking. -/
theorem pushBatch_skips (dev : String) (ok : String → Bool) (batch : List DbRow)
    (hsome : ∀ e ∈ batch, e.event_id.isSome = true) :
    ∀ rows, ∃ rows2,
      pushBatch dev ok batch rows = .ok (rows2, (eidsOfBatch batch).filter ok) := by
  induction batch with
  | nil => intro rows; exact ⟨rows, rfl⟩
  | cons e es ih =>
    intro rows
    obtain ⟨eid, heid⟩ := Option.isSome_iff_exists.mp
      (hsome e (List.mem_cons_self e es))
    have hes : ∀ x ∈ es, x.event_id.isSome = true :=
      fun x hx => hsome x (List.mem_cons_of_mem e hx)
    have hcons : eidsOfBatch (e :: es) = eid :: eidsOfBatch es := by
      unfold eidsOfBatch
      rw [List.filterMap_cons, heid]
    by_cases hok : ok eid = true
    · obtain ⟨rows2, hrun⟩ := ih hes (upsertRemote rows (payloadOf dev eid e))
      refine ⟨rows2, ?_⟩
      unfold pushBatch
      rw [heid]
      simp [hok, hrun, hcons, List.filter_cons]
    · obtain ⟨rows2, hrun⟩ := ih hes rows
      refine ⟨rows2, ?_⟩
      unfold pushBatch
      rw [heid]
      simp [hok, hrun, hcons, List.filter_cons]

/-- Marking the same event ids synced twice gives the same store as
marking them once. -/
theorem mark_entries_synced_idem (entries : List DbRow) (ids : List String)
    (now : Int) :
    mark_entries_synced (mark_entries_synced entries ids now) ids now =
      mark_entries_synced entries ids now := by
  unfold mark_entries_synced
  rw [List.map_map]
  apply List.map_congr_left
  intro e _
  rcases he : e.event_id with _ | eid
  · simp [Function.comp_apply, he]
  · by_cases hc : eid ∈ ids
    · simp [Function.comp_apply, he, hc]
    · simp [Function.comp_apply, he, hc]

/-- C2: pushing the same batch twice over the direct-store transport is
idempotent: with every upsert succeeding, the first push stores the batch
and the second push returns the remote rows completely unchanged, and
every batch event id ends up stored in exactly one remote row; with an
arbitrary per-entry failure oracle the pass never aborts and collects
exactly the oracle-accepted ids for local marking; and
mark_entries_synced is safe to call twice. -/
theorem direct_store_push_idempotent (dev : String) (batch : List DbRow)
    (rows0 : List RemoteRow)
    (hsome : ∀ e ∈ batch, e.event_id.isSome = true)
    (hnodup : (rows0.map fun r => r.event_id).Nodup) :
    (∃ rows1,
      pushBatch dev (fun _ => true) batch rows0 = .ok (rows1, eidsOfBatch batch) ∧
      pushBatch dev (fun _ => true) batch rows1 = .ok (rows1, eidsOfBatch batch) ∧
      (∀ x ∈ eidsOfBatch batch, (rows1.map fun r => r.event_id).count x = 1)) ∧
    (∀ ok, ∃ rows2,
      pushBatch dev ok batch rows0 = .ok (rows2, (eidsOfBatch batch).filter ok)) ∧
    (∀ entries ids now,
      mark_entries_synced (mark_entries_synced entries ids now) ids now =
        mark_entries_synced entries ids now) := by
  refine ⟨?_, fun ok => pushBatch_skips dev ok batch hsome rows0,
    fun entries ids now => mark_entries_synced_idem entries ids now⟩
  obtain ⟨rows1, hrun, hmem, hnd⟩ := pushBatch_all_success dev batch hsome rows0
  refine ⟨rows1, hrun, ?_, ?_⟩
  · exact pushBatch_noop dev batch hsome rows1
      fun x hx => (hmem x).mpr (Or.inr hx)
  · intro x hx
    exact List.count_eq_one_of_mem (hnd hnodup) ((hmem x).mpr (Or.inr hx))

/-- Witness for C2: the theorem applied to a concrete two-entry batch and
an empty remote store, instantiating the double-marking clause. -/
theorem direct_store_push_idempotent_witness :
    mark_entries_synced (mark_entries_synced
      [{ legacyRow 1 "a" with event_id := some "E1" }] ["E1"] 5) ["E1"] 5 =
      mark_entries_synced
        [{ legacyRow 1 "a" with event_id := some "E1" }] ["E1"] 5 :=
  (direct_store_push_idempotent "dev0"
    [{ legacyRow 1 "a" with event_id := some "E1" },
     { legacyRow 2 "b" with event_id := some "E2" }] []
    (by decide) (by decide)).2.2
    [{ legacyRow 1 "a" with event_id := some "E1" }] ["E1"] 5

/-! ### C8: the sync engine never touches business fields -/

/-- Marking entries synced changes no business field of any row. -/
theorem mark_preserves_business (entries : List DbRow) (ids : List String)
    (now : Int) :
    (mark_entries_synced entries ids now).map businessOf =
      entries.map businessOf := by
  unfold mark_entries_synced
  rw [List.map_map]
  apply List.map_congr_left
  intro e _
  rcases he : e.event_id with _ | eid
  · simp [Function.comp_apply, he]
  · by_cases hc : eid ∈ ids
    · simp [Function.comp_apply, he, hc, businessOf]
    · simp [Function.comp_apply, he, hc]

/-- C8: a sync pass (any number of batch iterations) leaves every business
field of every local row unchanged: the image of the local table under the
business projection is invariant, so the only local writes are to the
synced_at / sync_attempts bookkeeping columns; and the row sent to the
remote store is computed from the business fields alone: changing
synced_at and sync_attempts does not change the transmitted payload, so
the bookkeeping columns are never sent. -/
theorem sync_push_business_frame :
    (∀ dev ok threshold now fuel les rem,
      ((syncLoop dev ok threshold now fuel les rem).1).map businessOf =
        les.map businessOf) ∧
    (∀ dev eid e sa n,
      payloadOf dev eid { e with synced_at := sa, sync_attempts := n } =
        payloadOf dev eid e) := by
  constructor
  · intro dev ok threshold now fuel
    induction fuel with
    | zero => intro les rem; rfl
    | succ n ih =>
      intro les rem
      unfold syncLoop
      by_cases hb : (get_unsynced_entries les threshold 100).isEmpty = true
      · rw [if_pos hb]
      · rw [if_neg hb]
        rcases hpb : pushBatch dev ok (get_unsynced_entries les threshold 100) rem.rows with
          err | res
        · rfl
        · obtain ⟨rows2, ids⟩ := res
          by_cases hids : ids.isEmpty = true
          · simp only [hids, if_pos]
            exact ih les _
          · simp only [hids, if_neg, Bool.false_eq_true, not_false_iff]
            rw [ih (mark_entries_synced les ids now) _]
            exact mark_preserves_business les ids now
  · intro dev eid e sa n
    rfl

/-! ### C1: the version-3 backfill migration -/

/-- A backfill UPDATE never changes a row id. -/
theorem backfillUpd_id (dev u : String) (i : Int) (r : DbRow) :
    (backfillUpd dev u i r).id = r.id := by
  unfold backfillUpd
  split <;> rfl

/-- The backfill loop is the pointwise update: a row whose id occurs in the
processed list receives the ULID drawn at the position of its id, any
other row is untouched. -/
theorem backfillLoop_char (dev : String) (gen : Nat → String) :
    ∀ (is : List Int) (k : Nat) (rows : List DbRow), is.Nodup →
    backfillLoop dev gen k is rows =
      rows.map fun r =>
        if r.id ∈ is then finalUpd dev (gen (k + List.indexOf r.id is)) r else r := by
  intro is
  induction is with
  | nil =>
    intro k rows _
    simp [backfillLoop]
  | cons i is ih =>
    intro k rows hnd
    rw [List.nodup_cons] at hnd
    unfold backfillLoop
    rw [ih (k + 1) _ hnd.2, List.map_map]
    apply List.map_congr_left
    intro r _
    by_cases hri : r.id = i
    · have hup : backfillUpd dev (gen k) i r = finalUpd dev (gen k) r := by
        unfold backfillUpd finalUpd
        rw [if_pos hri]
      have hni2 : (finalUpd dev (gen k) r).id ∉ is := by
        show r.id ∉ is
        rw [hri]
        exact hnd.1
      have hmem : r.id ∈ i :: is := by
        rw [hri]
        exact List.mem_cons_self i is
      have hidx : List.indexOf r.id (i :: is) = 0 := by
        rw [hri]
        exact List.indexOf_cons_self i is
      simp only [Function.comp_apply, hup, if_neg hni2, if_pos hmem, hidx, Nat.add_zero]
    · have hup : backfillUpd dev (gen k) i r = r := by
        unfold backfillUpd
        rw [if_neg hri]
      have hidx : List.indexOf r.id (i :: is) = (List.indexOf r.id is).succ :=
        List.indexOf_cons_ne is (fun h => hri h.symm)
      simp only [Function.comp_apply, hup]
      by_cases hmem : r.id ∈ is
      · have hmem2 : r.id ∈ i :: is := List.mem_cons_of_mem i hmem
        rw [if_pos hmem, if_pos hmem2, hidx]
        have : k + 1 + List.indexOf r.id is = k + (List.indexOf r.id is).succ := by omega
        rw [this]
      · have hmem2 : r.id ∉ i :: is := by
          rw [List.mem_cons]
          rintro (h | h)
          · exact hri h
          · exact hmem h
        rw [if_neg hmem, if_neg hmem2]

/-- The non-null event ids of a mapped table whose image always carries an
event id. -/
theorem eidList_map_of_some (g : DbRow → DbRow) (u : DbRow → String) :
    ∀ rows : List DbRow, (∀ r ∈ rows, (g r).event_id = some (u r)) →
    eidList (rows.map g) = rows.map u := by
  intro rows
  induction rows with
  | nil => intro _; rfl
  | cons r rest ih =>
    intro h
    unfold eidList at *
    rw [List.map_cons, List.filterMap_cons, h r (List.mem_cons_self r rest),
      ih fun x hx => h x (List.mem_cons_of_mem r hx)]
    rfl

/-- Core of the v3 backfill: on a table whose rows all lack event and
device ids and whose ids are unique, the backfill driven by an injective
ULID stream keeps the length, gives every row the device id and a fresh
event id, and those event ids are pairwise distinct. -/
theorem backfill_core (dev : String) (gen : Nat → String) (rows : List DbRow)
    (h0 : ∀ r ∈ rows, r.event_id = none ∧ r.device_id = none)
    (hids : (rows.map fun r => r.id).Nodup)
    (hgen : ∀ i, i < rows.length → ∀ j, j < rows.length → gen i = gen j → i = j) :
    (backfillLoop dev gen 0 (backfillIds rows) rows).length = rows.length ∧
    (∀ r ∈ backfillLoop dev gen 0 (backfillIds rows) rows,
      r.device_id = some dev ∧ r.event_id.isSome = true) ∧
    (eidList (backfillLoop dev gen 0 (backfillIds rows) rows)).Nodup := by
  have hfil : rows.filter needsBackfill = rows := by
    rw [List.filter_eq_self]
    intro r hr
    unfold needsBackfill
    rw [(h0 r hr).1]
    simp
  have hperm : List.Perm (backfillIds rows) (rows.map fun r => r.id) := by
    unfold backfillIds
    rw [hfil]
    exact List.perm_insertionSort _ _
  have hlen : (backfillIds rows).length = rows.length := by
    rw [hperm.length_eq, List.length_map]
  have hndids : (backfillIds rows).Nodup := hperm.nodup_iff.mpr hids
  have hmemall : ∀ r ∈ rows, r.id ∈ backfillIds rows := by
    intro r hr
    exact hperm.mem_iff.mpr (List.mem_map_of_mem (fun r => r.id) hr)
  have hchar := backfillLoop_char dev gen (backfillIds rows) 0 rows hndids
  have hg : ∀ r ∈ rows,
      (if r.id ∈ backfillIds rows then
        finalUpd dev (gen (0 + List.indexOf r.id (backfillIds rows))) r else r) =
      finalUpd dev (gen (List.indexOf r.id (backfillIds rows))) r := by
    intro r hr
    rw [if_pos (hmemall r hr), Nat.zero_add]
  have hfields : ∀ r ∈ rows,
      (finalUpd dev (gen (List.indexOf r.id (backfillIds rows))) r).event_id =
        some (gen (List.indexOf r.id (backfillIds rows))) ∧
      (finalUpd dev (gen (List.indexOf r.id (backfillIds rows))) r).device_id =
        some dev := by
    intro r hr
    unfold finalUpd
    rw [(h0 r hr).1, (h0 r hr).2]
    exact ⟨rfl, rfl⟩
  refine ⟨?_, ?_, ?_⟩
  · rw [hchar, List.length_map]
  · intro r hr
    rw [hchar] at hr
    obtain ⟨r0, hr0, rfl⟩ := List.mem_map.mp hr
    rw [hg r0 hr0]
    refine ⟨(hfields r0 hr0).2, ?_⟩
    rw [(hfields r0 hr0).1]
    rfl
  · rw [hchar]
    have heq : eidList (rows.map fun r =>
        if r.id ∈ backfillIds rows then
          finalUpd dev (gen (0 + List.indexOf r.id (backfillIds rows))) r else r) =
        rows.map fun r => gen (List.indexOf r.id (backfillIds rows)) := by
      apply eidList_map_of_some
      intro r hr
      rw [hg r hr]
      exact (hfields r hr).1
    rw [heq]
    apply List.Nodup.map_on ?_ (List.Nodup.of_map _ hids)
    intro x hx y hy hxy
    have hxm : x.id ∈ backfillIds rows := hmemall x hx
    have hym : y.id ∈ backfillIds rows := hmemall y hy
    have hxl : List.indexOf x.id (backfillIds rows) < rows.length := by
      rw [← hlen]
      exact List.indexOf_lt_length.mpr hxm
    have hyl : List.indexOf y.id (backfillIds rows) < rows.length := by
      rw [← hlen]
      exact List.indexOf_lt_length.mpr hym
    have hidx : List.indexOf x.id (backfillIds rows) =
        List.indexOf y.id (backfillIds rows) := hgen _ hxl _ hyl hxy
    have hxg : (backfillIds rows).get
        ⟨List.indexOf x.id (backfillIds rows), by rw [hlen]; exact hxl⟩ = x.id :=
      List.indexOf_get _
    have hyg : (backfillIds rows).get
        ⟨List.indexOf y.id (backfillIds rows), by rw [hlen]; exact hyl⟩ = y.id :=
      List.indexOf_get _
    have hxy2 : x.id = y.id := by
      rw [← hxg, ← hyg]
      congr 1
      exact Fin.ext hidx
    exact List.inj_on_of_nodup_map hids hx hy hxy2

/-- Running migrate_to_v3 on a legacy store (tables present, none of the
four v3 columns present, unique row ids) with an injective ULID stream
succeeds and yields a version-3 store with the same number of rows, each
carrying the device id and a distinct fresh event id. -/
theorem migrate_to_v3_legacy (dev : String) (gen : Nat → String) (st : DbState)
    (hle : st.le_exists = true) (hsess : st.sess_exists = true)
    (hev : st.has_event_id = false) (hdev : st.has_device_id_le = false)
    (hsy : st.has_synced_at = false) (hsa : st.has_sync_attempts = false)
    (hids : (st.log_entries.map fun r => r.id).Nodup)
    (hgen : ∀ i, i < st.log_entries.length → ∀ j, j < st.log_entries.length →
      gen i = gen j → i = j) :
    ∃ st2, migrate_to_v3 dev gen st = .ok st2 ∧
      st2.user_version = 3 ∧
      st2.log_entries.length = st.log_entries.length ∧
      (∀ r ∈ st2.log_entries, r.device_id = some dev ∧ r.event_id.isSome = true) ∧
      (eidList st2.log_entries).Nodup := by
  cases st with
  | mk v le se ss rc ev dl sy sa ds les sess =>
    simp only at hle hsess hev hdev hsy hsa hids hgen
    subst hle hsess hev hdev hsy hsa
    have hrows0 : ∀ r ∈ ((((les.map fun r => { r with event_id := none }).map
        fun r => { r with device_id := none }).map
        fun r => { r with synced_at := none }).map
        fun r => { r with sync_attempts := 0 }),
        r.event_id = none ∧ r.device_id = none := by
      intro r hr
      simp only [List.mem_map] at hr
      obtain ⟨x3, ⟨x2, ⟨x1, ⟨x0, _, rfl⟩, rfl⟩, rfl⟩, rfl⟩ := hr
      exact ⟨rfl, rfl⟩
    have hids0 : (((((les.map fun r => { r with event_id := none }).map
        fun r => { r with device_id := none }).map
        fun r => { r with synced_at := none }).map
        fun r => { r with sync_attempts := 0 }).map fun r => r.id).Nodup := by
      simp only [List.map_map]
      exact hids
    have hlen0 : ((((les.map fun r => { r with event_id := none }).map
        fun r => { r with device_id := none }).map
        fun r => { r with synced_at := none }).map
        fun r => { r with sync_attempts := 0 }).length = les.length := by
      simp [List.length_map]
    obtain ⟨hlenF, hfieldsF, hnodupF⟩ := backfill_core dev gen _ hrows0 hids0
      (by rw [hlen0]; exact hgen)
    cases ds
    · unfold migrate_to_v3 migrate_to_v3_body
      simp only [Bool.not_true, Bool.not_false, Bool.false_eq_true, if_false,
        Bool.true_eq_false, if_true, Bool.true_or, Bool.or_true, ite_true, ite_false]
      rw [if_pos hnodupF]
      exact ⟨_, rfl, rfl, hlenF.trans hlen0, hfieldsF, hnodupF⟩
    · unfold migrate_to_v3 migrate_to_v3_body
      simp only [Bool.not_true, Bool.not_false, Bool.false_eq_true, if_false,
        Bool.true_eq_false, if_true, Bool.true_or, Bool.or_true, ite_true, ite_false]
      rw [if_pos hnodupF]
      exact ⟨_, rfl, rfl, hlenF.trans hlen0, hfieldsF, hnodupF⟩

/-- migrate_to_v2 on a store whose log_entries table exists: succeeds,
stamps version 2, and touches neither the other schema flags nor the row
ids. -/
theorem migrate_to_v2_fields (st : DbState) (hle : st.le_exists = true) :
    ∃ st1, migrate_to_v2 st = .ok st1 ∧ st1.user_version = 2 ∧
      st1.le_exists = st.le_exists ∧ st1.sess_exists = st.sess_exists ∧
      st1.has_event_id = st.has_event_id ∧
      st1.has_device_id_le = st.has_device_id_le ∧
      st1.has_synced_at = st.has_synced_at ∧
      st1.has_sync_attempts = st.has_sync_attempts ∧
      (st1.log_entries.map fun r => r.id) = (st.log_entries.map fun r => r.id) ∧
      st1.log_entries.length = st.log_entries.length := by
  unfold migrate_to_v2
  rw [hle]
  simp only [Bool.not_true, Bool.false_eq_true, if_false]
  by_cases hrc : st.has_repo_cols = true
  · rw [if_pos hrc]
    exact ⟨_, rfl, rfl, hle, rfl, rfl, rfl, rfl, rfl, rfl, rfl⟩
  · rw [if_neg hrc]
    refine ⟨_, rfl, rfl, rfl, rfl, rfl, rfl, rfl, rfl, ?_, ?_⟩
    · rw [List.map_map]
      exact List.map_congr_left fun r _ => rfl
    · rw [List.length_map]

/-- Idempotence of the driver at version 3: once the store is stamped 3,
init_schema does nothing. -/
theorem init_schema_noop (s : DbState) (h3 : s.user_version = 3) :
    ∀ d g, init_schema d g s = .ok s := by
  intro d g
  unfold init_schema
  rw [h3]
  norm_num

/-- C1 (amended to versions 1 and 2): running the schema migration on a
legacy store at version 1 or 2 whose N pre-existing rows lack the
event_id (and other v3) columns, with pairwise-distinct row ids and an
injective ULID stream, succeeds and yields exactly N rows, each with the
current device id and a non-null event id, all event ids pairwise
distinct, stamps version 3, and a second run of the migration driver on
the resulting store is a no-op.  (At version 0 the claim fails: see the
counterexample.) -/
theorem migration_v3_backfill (dev : String) (gen : Nat → String) (st : DbState)
    (hver : st.user_version = 1 ∨ st.user_version = 2)
    (hle : st.le_exists = true) (hsess : st.sess_exists = true)
    (hev : st.has_event_id = false) (hdev : st.has_device_id_le = false)
    (hsy : st.has_synced_at = false) (hsa : st.has_sync_attempts = false)
    (hids : (st.log_entries.map fun r => r.id).Nodup)
    (hgen : ∀ i, i < st.log_entries.length → ∀ j, j < st.log_entries.length →
      gen i = gen j → i = j) :
    ∃ st2, init_schema dev gen st = .ok st2 ∧
      st2.user_version = 3 ∧
      st2.log_entries.length = st.log_entries.length ∧
      (∀ r ∈ st2.log_entries, r.device_id = some dev ∧ r.event_id.isSome = true) ∧
      (eidList st2.log_entries).Nodup ∧
      (∀ dev2 gen2, init_schema dev2 gen2 st2 = .ok st2) := by
  rcases hver with h1 | h2
  · obtain ⟨st1, hm2, huv2, hle1, hsess1, hev1, hdev1, hsy1, hsa1, hmapid1, hlen1⟩ :=
      migrate_to_v2_fields st hle
    obtain ⟨st2, hm3, huv3, hlen3, hfields3, hnodup3⟩ := migrate_to_v3_legacy dev gen st1
      (hle1.trans hle) (hsess1.trans hsess) (hev1.trans hev) (hdev1.trans hdev)
      (hsy1.trans hsy) (hsa1.trans hsa)
      (by rw [hmapid1]; exact hids)
      (by rw [hlen1]; exact hgen)
    refine ⟨st2, ?_, huv3, hlen3.trans hlen1, hfields3, hnodup3,
      fun d g => init_schema_noop st2 huv3 d g⟩
    simp [init_schema, h1, hm2, hm3]
  · obtain ⟨st2, hm3, huv3, hlen3, hfields3, hnodup3⟩ :=
      migrate_to_v3_legacy dev gen st hle hsess hev hdev hsy hsa hids hgen
    refine ⟨st2, ?_, huv3, hlen3, hfields3, hnodup3,
      fun d g => init_schema_noop st2 huv3 d g⟩
    simp [init_schema, h2, hm3]

/-- Counterexample to C1 as stated: a version-0 store that already holds
one row lacking the event_id column makes the migration driver fail (the
fresh-install path creates an index over the missing repo_root column),
so no migrated version-3 store with backfilled event ids results. -/
theorem migration_v0_counterexample :
    demoV0.user_version = 0 ∧
    demoV0.log_entries.length = 1 ∧
    eidList demoV0.log_entries = [] ∧
    migOk (init_schema "dev0" demoGen demoV0) = false := by
  refine ⟨rfl, rfl, rfl, ?_⟩
  decide

/-- Witness for C1: the migration succeeds on the concrete two-row
version-1 store. -/
theorem migration_v3_backfill_witness :
    migOk (init_schema "dev0" demoGen demoV1) = true := by
  obtain ⟨st2, h, _⟩ := migration_v3_backfill "dev0" demoGen demoV1 (Or.inl rfl)
    rfl rfl rfl rfl rfl rfl (by decide) (by decide)
  rw [h]
  rfl

end Clog
